import Mathlib

set_option maxRecDepth 16000

/-!
Verification of the streaming JSON-gateway client (`src/etcd3/aio_client.py`).

The development shallowly embeds, in order:
* a model of decoded JSON values and of the standard-library `json.loads`
  collaborator (restricted to integer numerals and to the string escapes the
  gateway envelope uses);
* the bracket-counting tokenizer `ResponseIter.next` and the whole-stream
  tokenization it induces;
* the stream decoder `ModelizedStreamResponse.__anext__` and the per-frame
  modeling pipeline;
* the orchestrator pieces of `AioClient`: `_raise_for_status`, the header
  construction of `call_rpc`, and the stream/raw dispatch of `call_rpc`;
* the close/idempotence model of the stream handle.

Byte streams are embedded as `List UInt8`; Python text as `List Char` /
`String`.  Machine integers do not occur: the only counter is the unbounded
Python int `bracket_flag`, embedded as `Int`.
-/

/-- Decoded JSON values, as produced by Python's `json.loads`: `None`, `bool`,
`int`, `str`, `list` and `dict`.  Numerals are restricted to integers (the
gateway envelope fields `grpc_code`, `http_code`, `code` are ints); floats are
outside the model and the parser rejects them. -/
inductive JValue where
  | null : JValue
  | bool (b : Bool) : JValue
  | num (n : Int) : JValue
  | str (s : String) : JValue
  | arr (elems : List JValue) : JValue
  | obj (fields : List (String × JValue)) : JValue

/-- Python `dict.get k`: the value stored under `k`.  A parsed object is kept
as the member list in source order; on duplicate keys Python's dict keeps the
last value, hence lookup in the reversed list. -/
def jget (kvs : List (String × JValue)) (k : String) : Option JValue :=
  List.lookup k kvs.reverse

/-- Python truthiness of a decoded JSON value (`if data.get( ... ):`):
`None`, `False`, `0`, `""`, `[]` and the empty dict are falsy. -/
def truthy : JValue → Bool
  | .null => false
  | .bool b => b
  | .num n => n != 0
  | .str s => !s.isEmpty
  | .arr xs => !xs.isEmpty
  | .obj kvs => !kvs.isEmpty

/-- Truthiness of the result of `dict.get` (absent key gives `None`, falsy). -/
def truthyOpt : Option JValue → Bool
  | none => false
  | some v => truthy v

/-- A UTF-8 continuation byte (`10xxxxxx`). -/
def contByte (b : UInt8) : Bool := 128 ≤ b && b < 192

/-- Model of Python's `str(data, encoding='utf-8')`: strict UTF-8 decoding.
Overlong encodings, surrogates and out-of-range code points are rejected,
as CPython rejects them with `UnicodeDecodeError`. -/
def utf8Decode : List UInt8 → Option (List Char)
  | [] => some []
  | b :: rest =>
    if b < 128 then
      (utf8Decode rest).map (fun cs => Char.ofNat b.toNat :: cs)
    else if 194 ≤ b && b ≤ 223 then
      match rest with
      | b2 :: rest2 =>
        if contByte b2 then
          let cp := (b.toNat - 192) * 64 + (b2.toNat - 128)
          (utf8Decode rest2).map (fun cs => Char.ofNat cp :: cs)
        else none
      | [] => none
    else if 224 ≤ b && b ≤ 239 then
      match rest with
      | b2 :: b3 :: rest3 =>
        if contByte b2 && contByte b3 then
          let cp := (b.toNat - 224) * 4096 + (b2.toNat - 128) * 64 + (b3.toNat - 128)
          if 2048 ≤ cp && (cp < 55296 || 57344 ≤ cp) then
            (utf8Decode rest3).map (fun cs => Char.ofNat cp :: cs)
          else none
        else none
      | _ => none
    else if 240 ≤ b && b ≤ 244 then
      match rest with
      | b2 :: b3 :: b4 :: rest4 =>
        if contByte b2 && contByte b3 && contByte b4 then
          let cp := (b.toNat - 240) * 262144 + (b2.toNat - 128) * 4096 +
            (b3.toNat - 128) * 64 + (b4.toNat - 128)
          if 65536 ≤ cp && cp ≤ 1114111 then
            (utf8Decode rest4).map (fun cs => Char.ofNat cp :: cs)
          else none
        else none
      | _ => none
    else none

/-- JSON insignificant whitespace. -/
def isJsonWs (c : Char) : Bool := c = ' ' || c = '\t' || c = '\n' || c = '\r'

/-- Drop leading JSON whitespace. -/
def skipWs (s : List Char) : List Char := s.dropWhile isJsonWs

/-- The character named by a JSON string escape (after the backslash).
`\uXXXX` escapes are outside the model (the gateway envelope does not use
them); the model parser rejects them. -/
def escChar (e : Char) : Option Char :=
  if e = '"' then some '"'
  else if e = '\\' then some '\\'
  else if e = '/' then some '/'
  else if e = 'b' then some (Char.ofNat 8)
  else if e = 'f' then some (Char.ofNat 12)
  else if e = 'n' then some '\n'
  else if e = 'r' then some (Char.ofNat 13)
  else if e = 't' then some '\t'
  else none

/-- Parse the body of a JSON string (the opening quote already consumed),
returning the characters and the remaining input. -/
def parseStrBody : List Char → Option (List Char × List Char)
  | [] => none
  | c :: rest =>
    if c = '"' then some ([], rest)
    else if c = '\\' then
      match rest with
      | [] => none
      | e :: rest2 =>
        match escChar e with
        | some ec => (parseStrBody rest2).map (fun p => (ec :: p.1, p.2))
        | none => none
    else if c.toNat < 32 then none
    else (parseStrBody rest).map (fun p => (c :: p.1, p.2))

/-- Accumulate a run of decimal digits. -/
def digitsAux : Nat → List Char → Nat × List Char
  | acc, [] => (acc, [])
  | acc, c :: rest =>
    if c.isDigit then digitsAux (acc * 10 + (c.toNat - 48)) rest
    else (acc, c :: rest)

/-- Parse a JSON integer numeral (optional minus, no leading zeros, and — a
documented restriction of the model — no fraction or exponent part). -/
def parseIntNum (s : List Char) : Option (Int × List Char) :=
  let (neg, s1) := match s with
    | '-' :: t => (true, t)
    | _ => (false, s)
  match s1 with
  | [] => none
  | c :: _ =>
    if !c.isDigit then none
    else
      match s1 with
      | '0' :: d :: _ => if d.isDigit then none else parseIntTail neg s1
      | _ => parseIntTail neg s1
where
  /-- Finish the numeral: digits already validated to start `s1`. -/
  parseIntTail (neg : Bool) (s1 : List Char) : Option (Int × List Char) :=
    let (n, rest) := digitsAux 0 s1
    match rest with
    | c :: _ =>
      if c = '.' || c = 'e' || c = 'E' then none
      else some (if neg then -(n : Int) else (n : Int), rest)
    | [] => some (if neg then -(n : Int) else (n : Int), [])

mutual

/-- Recursive-descent JSON value parser (model of `json.loads`, see `JValue`
for the documented restrictions).  Fuel only bounds nesting; every use either
evaluates on concrete input or is hypothesis-guarded. -/
def parseVal : Nat → List Char → Option (JValue × List Char)
  | 0, _ => none
  | Nat.succ fuel, s =>
    match skipWs s with
    | [] => none
    | c :: rest =>
      if c = '"' then
        (parseStrBody rest).map (fun p => (.str (String.mk p.1), p.2))
      else if c = '\x7b' then
        match skipWs rest with
        | '\x7d' :: rest2 => some (.obj [], rest2)
        | _ => (parseObjBody fuel (skipWs rest)).map (fun p => (.obj p.1, p.2))
      else if c = '[' then
        match skipWs rest with
        | ']' :: rest2 => some (.arr [], rest2)
        | _ => (parseArrBody fuel (skipWs rest)).map (fun p => (.arr p.1, p.2))
      else if c = 't' then
        match rest with
        | 'r' :: 'u' :: 'e' :: rest2 => some (.bool true, rest2)
        | _ => none
      else if c = 'f' then
        match rest with
        | 'a' :: 'l' :: 's' :: 'e' :: rest2 => some (.bool false, rest2)
        | _ => none
      else if c = 'n' then
        match rest with
        | 'u' :: 'l' :: 'l' :: rest2 => some (.null, rest2)
        | _ => none
      else if c = '-' || c.isDigit then
        (parseIntNum (c :: rest)).map (fun p => (.num p.1, p.2))
      else none

/-- Parse the members of a JSON object (first member expected next). -/
def parseObjBody : Nat → List Char → Option (List (String × JValue) × List Char)
  | 0, _ => none
  | Nat.succ fuel, s =>
    match s with
    | '"' :: rest =>
      match parseStrBody rest with
      | none => none
      | some (key, r1) =>
        match skipWs r1 with
        | ':' :: r2 =>
          match parseVal fuel r2 with
          | none => none
          | some (v, r3) =>
            match skipWs r3 with
            | ',' :: r4 =>
              (parseObjBody fuel (skipWs r4)).map
                (fun p => ((String.mk key, v) :: p.1, p.2))
            | '\x7d' :: r4 => some ([(String.mk key, v)], r4)
            | _ => none
        | _ => none
    | _ => none

/-- Parse the elements of a JSON array (first element expected next). -/
def parseArrBody : Nat → List Char → Option (List JValue × List Char)
  | 0, _ => none
  | Nat.succ fuel, s =>
    match parseVal fuel s with
    | none => none
    | some (v, r1) =>
      match skipWs r1 with
      | ',' :: r2 => (parseArrBody fuel r2).map (fun p => (v :: p.1, p.2))
      | ']' :: r2 => some ([v], r2)
      | _ => none

end

/-- Model of `json.loads` on text: parse one value, then require only
whitespace to remain. -/
def jsonLoads (cs : List Char) : Option JValue :=
  match parseVal (cs.length + 1) cs with
  | some (v, rest) => if (skipWs rest).isEmpty then some v else none
  | none => none

/-- Model of `json.loads(str(data, encoding='utf-8'))` on raw bytes: UTF-8
decode then parse.  Both failure modes (UnicodeDecodeError and
JSONDecodeError) are untyped standard-library exceptions, collapsed to
`none`. -/
def jsonLoadsBytes (bs : List UInt8) : Option JValue :=
  (utf8Decode bs).bind jsonLoads

/-- ASCII text to bytes, for concrete gateway payloads (all ASCII). -/
def strBytes (s : String) : List UInt8 :=
  s.toList.map (fun c => UInt8.ofNat c.toNat)

/-! ## Bracket-counting tokenizer: `ResponseIter` -/

/-- One step of the bracket counter of `ResponseIter.next`:
`if c == b'{': self.bracket_flag += 1  elif c == b'}': self.bracket_flag -= 1`
(bytes 123 and 125 are the braces). -/
def bump (flag : Int) (c : UInt8) : Int :=
  if c = 123 then flag + 1
  else if c = 125 then flag - 1
  else flag

/-- Net bracket depth of a byte sequence: the sum of the counter bumps of its
bytes (what `self.bracket_flag` gains while reading the sequence). -/
def depth : List UInt8 → Int
  | [] => 0
  | c :: t => bump 0 c + depth t

/-- Result of one call of `ResponseIter.next`. -/
inductive RINext where
  | frame (s : List UInt8) : RINext
  | stop : RINext
  | streamError (buf : List UInt8) : RINext

/-- One call of `ResponseIter.next`, embedded over the unread part of the
response body.  State `buf`/`flag` are the instance attributes `self.buf` and
`self.bracket_flag`; the second component of the result is the input left
unread by this call.  Mirrors the source loop: read one byte; empty read with
a non-empty buffer raises `Etcd3StreamError` (carrying the buffer), with an
empty buffer raises `StopAsyncIteration`; otherwise append the byte, bump the
counter, emit the buffer when the counter is zero, raise `Etcd3StreamError`
when it is negative, else loop. -/
def riNext : List UInt8 → List UInt8 → Int → RINext × List UInt8
  | [], buf, _ =>
    if buf.isEmpty then (.stop, []) else (.streamError buf, [])
  | c :: rest, buf, flag =>
    let buf' := buf ++ [c]
    let flag' := bump flag c
    if flag' = 0 then (.frame buf', rest)
    else if flag' < 0 then (.streamError buf', rest)
    else riNext rest buf' flag'

/-- Terminal signal of a whole-stream tokenization. -/
inductive TokEnd where
  | clean : TokEnd
  | error (buf : List UInt8) : TokEnd

/-- Driving `ResponseIter.next` to exhaustion, fused into one structural
recursion: the frames emitted, and the terminal signal (`clean` for
`StopAsyncIteration`, `error` for `Etcd3StreamError`).  After each emitted
frame the source resets `self.buf = []`, and `self.bracket_flag` is zero
exactly when a frame is emitted.  `tokGo_eq_riNext` below proves this driver
agrees with iterating `riNext`. -/
def tokGo : List UInt8 → List UInt8 → Int → List (List UInt8) × TokEnd
  | [], buf, _ => ([], if buf.isEmpty then .clean else .error buf)
  | c :: rest, buf, flag =>
    let buf' := buf ++ [c]
    let flag' := bump flag c
    if flag' = 0 then
      let r := tokGo rest [] 0
      (buf' :: r.1, r.2)
    else if flag' < 0 then ([], .error buf')
    else tokGo rest buf' flag'

/-- Whole-stream tokenization of a response body from the initial
`ResponseIter` state (`self.buf = []`, `self.bracket_flag = 0`). -/
def tokenize (input : List UInt8) : List (List UInt8) × TokEnd :=
  tokGo input [] 0

/-! ## Stream decoder: `ModelizedStreamResponse.__anext__` -/

/-- Modelled from the spec: `BaseClient._modelizeResponseData` lives in the
repository's base-client module, which is not under `src/`.  Per spec §4.3 it
is a pure function of the method identifier, the effective payload and the
decode flag, producing the typed per-method result; the per-method schema
catalogue is an external collaborator out of scope, so the typed result is
modelled as the triple the modeler receives. -/
structure ModeledResult where
  method : String
  payload : JValue
  decode : Bool

/-- Modelled from the spec: `BaseClient._modelizeResponseData` (see
`ModeledResult`). -/
def modelizeResponseData (method : String) (payload : JValue) (decode : Bool) :
    ModeledResult :=
  ⟨method, payload, decode⟩

/-- Outcome of one call of `ModelizedStreamResponse.__anext__`. -/
inductive AnextOutcome where
  /-- A modeled result is returned to the iterating caller. -/
  | item (r : ModeledResult) : AnextOutcome
  /-- `Etcd3APIError(err.get('message'), code=err.get('code'),
  status=err.get('http_code'))` is raised. -/
  | apiError (message code status : Option JValue) : AnextOutcome
  /-- `StopAsyncIteration` from the tokenizer propagates: clean end. -/
  | stopIter : AnextOutcome
  /-- `Etcd3StreamError` from the tokenizer propagates. -/
  | streamError (buf : List UInt8) : AnextOutcome
  /-- `str( ... , encoding='utf-8')` or `json.loads` raised an untyped
  standard-library decode exception on this frame. -/
  | decodeError (frame : List UInt8) : AnextOutcome
  /-- `.get` was called on a non-dict (`AttributeError`), carrying the
  offending value. -/
  | attrError (v : JValue) : AnextOutcome

/-- The per-frame part of `__anext__`: decode the frame as UTF-8 JSON; if the
document's `error` entry is truthy, raise `Etcd3APIError` from the error
sub-document's `message`, `code` and `http_code` entries; else unwrap a
`result` entry if the key is present; pass the effective payload to the
modeler. -/
def anextFrame (method : String) (dec : Bool) (f : List UInt8) : AnextOutcome :=
  match jsonLoadsBytes f with
  | none => .decodeError f
  | some data =>
    match data with
    | .obj kvs =>
      match jget kvs "error" with
      | some errv =>
        if truthy errv then
          match errv with
          | .obj ekvs =>
            .apiError (jget ekvs "message") (jget ekvs "code") (jget ekvs "http_code")
          | v => .attrError v
        else
          match jget kvs "result" with
          | some r => .item (modelizeResponseData method r dec)
          | none => .item (modelizeResponseData method (.obj kvs) dec)
      | none =>
        match jget kvs "result" with
        | some r => .item (modelizeResponseData method r dec)
        | none => .item (modelizeResponseData method (.obj kvs) dec)
    | v => .attrError v

/-- One call of `__anext__` from tokenizer state `buf`/`flag`: one
`ResponseIter.next` call, then the per-frame pipeline. -/
def anextStep (method : String) (dec : Bool) (input buf : List UInt8)
    (flag : Int) : AnextOutcome × List UInt8 :=
  match riNext input buf flag with
  | (.stop, rest) => (.stopIter, rest)
  | (.streamError b, rest) => (.streamError b, rest)
  | (.frame f, rest) => (anextFrame method dec f, rest)

/-- Iterating the stream handle to its terminal signal (fused driver, like
`tokGo`): the modeled results yielded, then the terminating outcome.  Any
non-`item` outcome ends the iteration, as an exception ends a Python
`async for`. -/
def runGo (method : String) (dec : Bool) :
    List UInt8 → List UInt8 → Int → List ModeledResult × AnextOutcome
  | [], buf, _ => ([], if buf.isEmpty then .stopIter else .streamError buf)
  | c :: rest, buf, flag =>
    let buf' := buf ++ [c]
    let flag' := bump flag c
    if flag' = 0 then
      match anextFrame method dec buf' with
      | .item r =>
        let t := runGo method dec rest [] 0
        (r :: t.1, t.2)
      | o => ([], o)
    else if flag' < 0 then ([], .streamError buf')
    else runGo method dec rest buf' flag'

/-- Iterating a fresh stream handle over a whole response body. -/
def runStream (method : String) (dec : Bool) (input : List UInt8) :
    List ModeledResult × AnextOutcome :=
  runGo method dec input [] 0

/-! ## Orchestrator: `AioClient._raise_for_status` and `call_rpc` -/

/-- The HTTP response handed back by the transport collaborator: status code
and raw body bytes (spec §6: body, status and headers are available). -/
structure HttpResponse where
  status : Nat
  body : List UInt8

/-- Outcome of `AioClient._raise_for_status`. -/
inductive RaiseResult where
  /-- Status below 400: the method returns. -/
  | ok : RaiseResult
  /-- Body parsed as JSON: `Etcd3APIError(data.get('error'), data.get('code'),
  status, resp)` is raised. -/
  | apiError (error code : Option JValue) (status : Nat) : RaiseResult
  /-- Body failed to parse: `Etcd3APIError(resp.content, 2, status, resp)` is
  raised (the raw content stream as the error, the generic code 2). -/
  | apiErrorRawBody (status : Nat) : RaiseResult
  /-- Body parsed to a non-dict: `data.get` raises `AttributeError` outside
  the `try`, so no `Etcd3APIError` is constructed. -/
  | attrError (v : JValue) : RaiseResult

/-- `AioClient._raise_for_status`: return when the status is below 400, else
try to parse the body as JSON and raise `Etcd3APIError` built from the
top-level `error` and `code` entries (or from the raw content with code 2 when
parsing fails). -/
def raiseForStatus (resp : HttpResponse) : RaiseResult :=
  if resp.status < 400 then .ok
  else
    match jsonLoadsBytes resp.body with
    | none => .apiErrorRawBody resp.status
    | some data =>
      match data with
      | .obj kvs => .apiError (jget kvs "error") (jget kvs "code") resp.status
      | v => .attrError v

/-- Modelled from the spec: `Etcd3Exception`, the root protocol exception
class of the repository's errors module (not under `src/`); spec §7 lists its
recognized protocol-error subclasses.  Only its identity matters here. -/
structure Etcd3Exception where
  msg : String

/-- Outcome of a `call_rpc` call, after the HTTP POST returned `resp`. -/
inductive CallRpcResult where
  /-- `_raise_for_status` raised; the exception propagates out of
  `call_rpc`. -/
  | statusError (r : RaiseResult) : CallRpcResult
  /-- `raw=True`: the untouched response object is returned. -/
  | rawResponse (resp : HttpResponse) : CallRpcResult
  /-- `stream=True`: the constructed `ModelizedStreamResponse` handle is
  returned (it wraps the method name and the open response). -/
  | streamResponse (method : String) (resp : HttpResponse) : CallRpcResult
  /-- An `Etcd3Exception` propagates out of `call_rpc`.  Spec §4.4 expects
  this outcome when constructing the stream handle fails; the code never
  produces it. -/
  | raised (e : Etcd3Exception) : CallRpcResult
  /-- Non-streamed success: the parsed body passed once through the
  modeler. -/
  | modeled (r : ModeledResult) : CallRpcResult
  /-- The final `await resp.json()` failed to parse the body. -/
  | jsonError : CallRpcResult
  /-- The final `await resp.json()` was attempted on a response that the
  stream branch had already closed: the transport raises a connection error
  on the closed response. -/
  | readAfterClose : CallRpcResult

/-- `AioClient.call_rpc` after the POST, embedded over the transport's
response.  `constructErr` models the outcome of
`self._modelizeStreamResponse(method, resp)`: `_modelizeStreamResponse` is a
classmethod hook, and the `except Etcd3Exception` branch exists for an
override that raises; in this file's embedding of the source constructor it
never raises (`none`).  The `Bool` component records whether `call_rpc`
itself closed the response.  The source `except` branch runs `resp.close()`
and then — with no `raise` — falls through to
`return self._modelizeResponseData(method, await resp.json())` on the closed
response. -/
def callRpc (method : String) (resp : HttpResponse) (stream raw : Bool)
    (constructErr : Option Etcd3Exception) : CallRpcResult × Bool :=
  match raiseForStatus resp with
  | .ok =>
    if raw then (.rawResponse resp, false)
    else if stream then
      match constructErr with
      | none => (.streamResponse method resp, false)
      | some _ => (.readAfterClose, true)
    else
      match jsonLoadsBytes resp.body with
      | some d => (.modeled (modelizeResponseData method d true), false)
      | none => (.jsonError, false)
  | r => (.statusError r, false)

/-! ## Header construction in `call_rpc` -/

/-- Python `dict` over string keys and values, embedded by its key-to-value
mapping (insertion order plays no role in the header semantics). -/
def PyDict : Type := String → Option String

/-- The empty dict `\x7b\x7d`. -/
def dEmpty : PyDict := fun _ => none

/-- Python `d.setdefault(k, v)`: keep the stored value when the key is
present, else store `v` under `k`. -/
def dSetdefault (d : PyDict) (k v : String) : PyDict :=
  fun k' => if k' = k then some ((d k).getD v) else d k'

/-- Python `d.update(other)`: every key of `other` now maps to `other`'s
value; all remaining keys keep `d`'s value. -/
def dUpdate (d : PyDict) (other : PyDict) : PyDict :=
  fun k' =>
    match other k' with
    | some v => some v
    | none => d k'

/-- The request headers `call_rpc` sends, from the two source lines
`kwargs.setdefault('headers', ...).setdefault('user_agent', self.user_agent)`
and `kwargs.setdefault('headers', ...).update(self.headers)`: start from the
caller-supplied headers (or an empty dict when the caller passed none),
default the `user_agent` entry to the client's user agent, then write all of
the client's default headers over the result. -/
def callRpcHeaders (callerHeaders : Option PyDict) (userAgent : String)
    (clientHeaders : PyDict) : PyDict :=
  dUpdate (dSetdefault (callerHeaders.getD dEmpty) "user_agent" userAgent)
    clientHeaders

/-! ## Stream handle close: `ModelizedStreamResponse.close` -/

/-- Close/release state of the transport's response object (external
collaborator, spec §6: the body exposes read and close).  `released` counts
how many times the underlying pooled connection has been released. -/
structure RespState where
  closed : Bool
  released : Nat

/-- Model of `aiohttp.ClientResponse.close`: the first call marks the
response closed and releases its connection; calling it on an already-closed
response changes nothing. -/
def respClose (r : RespState) : RespState :=
  if r.closed then r else { closed := true, released := r.released + 1 }

/-- The stream handle state relevant to closing: `ModelizedStreamResponse`
stores the response object as `self.resp`. -/
structure StreamHandle where
  resp : RespState

/-- `ModelizedStreamResponse.close`: `return self.resp.close()`. -/
def msrClose (h : StreamHandle) : StreamHandle :=
  { h with resp := respClose h.resp }

/-! ## Raw-frame and truncation predicates -/

/-- A raw frame in the sense of spec §3: an opening brace through its matching
closing brace.  The depth is zero over the whole sequence and strictly
positive on every nonempty proper prefix (so the counter first returns to
zero exactly at the end). -/
def StrictObj (s : List UInt8) : Prop :=
  s ≠ [] ∧ depth s = 0 ∧ ∀ n, n < s.length → 0 < n → 0 < depth (s.take n)

/-- A stream truncated inside an object: nonempty, and every nonempty prefix
(including the whole sequence) has strictly positive depth, so the counter
never returns to zero and never goes negative before the input ends. -/
def TruncObj (s : List UInt8) : Prop :=
  s ≠ [] ∧ ∀ n, n < s.length + 1 → 0 < n → 0 < depth (s.take n)

instance (s : List UInt8) : Decidable (StrictObj s) :=
  inferInstanceAs (Decidable (_ ≠ _ ∧ _ = _ ∧ ∀ n, n < s.length → 0 < n → 0 < depth (s.take n)))

instance (s : List UInt8) : Decidable (TruncObj s) :=
  inferInstanceAs (Decidable (_ ≠ _ ∧ ∀ n, n < s.length + 1 → 0 < n → 0 < depth (s.take n)))

/-! ## Concrete payloads used by the claim theorems -/

/-- The HTTP error body of claim C1 (braces written as hex escapes). -/
def c1Body : List UInt8 :=
  strBytes "\x7b\"error\":\x7b\"grpc_code\":14,\"http_code\":503,\"message\":\"transport is closing\"\x7d\x7d"

/-- What the body of claim C1 parses to under the `error` key. -/
def c1Err : JValue :=
  .obj [("grpc_code", .num 14), ("http_code", .num 503),
        ("message", .str "transport is closing")]

/-- A caller-supplied header dict with one entry. -/
def callerHdrs : PyDict :=
  fun k => if k = "x-extra" then some "caller-value" else none

/-- A client default-header dict sharing the key. -/
def clientHdrs : PyDict :=
  fun k => if k = "x-extra" then some "client-default" else none

/-- A streamed frame whose document contains an `error` key with an empty
(falsy) error object. -/
def c4BadFrame : List UInt8 := strBytes "\x7b\"error\":\x7b\x7d\x7d"

/-- The gateway wire-format error frame of spec §6. -/
def c4WireFrame : List UInt8 :=
  strBytes "\x7b\"error\":\x7b\"grpc_code\":14,\"http_code\":503,\"message\":\"transport is closing\",\"http_status\":\"Service Unavailable\"\x7d\x7d"

/-- The member list of the wire-format error sub-document. -/
def c4WireErr : List (String × JValue) :=
  [("grpc_code", .num 14), ("http_code", .num 503),
   ("message", .str "transport is closing"),
   ("http_status", .str "Service Unavailable")]

/-- A single valid JSON object whose brace counts balance but whose string
literal contains braces: `\x7b"a":"\x7d\x7b"\x7d`. -/
def c5Obj : List UInt8 := strBytes "\x7b\"a\":\"\x7d\x7b\"\x7d"

/-- First witness object for C5. -/
def c5W1 : List UInt8 := strBytes "\x7b\"result\":\x7b\"x\":1\x7d\x7d"

/-- Second witness object for C5. -/
def c5W2 : List UInt8 := strBytes "\x7b\"result\":\x7b\"x\":2\x7d\x7d"

/-- The streamed body of claim C6: two `result`-enveloped objects
back-to-back with no separator. -/
def c6Body : List UInt8 :=
  strBytes "\x7b\"result\":\x7b\"x\":1\x7d\x7d\x7b\"result\":\x7b\"x\":2\x7d\x7d"

/-- The spec's truncated object: an opening brace never closed. -/
def c7Trunc : List UInt8 := strBytes "\x7b\"a\":1"

/-- One complete object preceding the truncated one in the C7 witness. -/
def c7Whole : List UInt8 := strBytes "\x7b\"a\":1\x7d"

/-! ## Bridge and tokenizer lemmas -/

theorem bump_shift (a : Int) (c : UInt8) : bump a c = a + bump 0 c := by
  simp only [bump]
  split_ifs <;> ring

/-- The fused driver `tokGo` computes exactly one `riNext` call and, on a
frame, recurses from the reset state — so `tokenize` is faithful to
repeatedly calling `ResponseIter.next`. -/
theorem tokGo_eq_riNext (input buf : List UInt8) (flag : Int) :
    tokGo input buf flag =
      match riNext input buf flag with
      | (.stop, _) => ([], .clean)
      | (.streamError b, _) => ([], .error b)
      | (.frame f, rest) =>
        let r := tokGo rest [] 0
        (f :: r.1, r.2) := by
  induction input generalizing buf flag with
  | nil =>
    by_cases h : buf.isEmpty <;> simp [tokGo, riNext, h]
  | cons c rest ih =>
    by_cases h0 : bump flag c = 0
    · simp [tokGo, riNext, h0]
    · by_cases hneg : bump flag c < 0
      · simp [tokGo, riNext, h0, hneg]
      · simp only [tokGo, riNext, h0, hneg, if_false]
        exact ih (buf ++ [c]) (bump flag c)

/-- The fused iteration driver agrees with performing one `__anext__` step
and continuing from the reset tokenizer state. -/
theorem runGo_eq_anextStep (method : String) (dec : Bool)
    (input buf : List UInt8) (flag : Int) :
    runGo method dec input buf flag =
      match anextStep method dec input buf flag with
      | (.item r, rest) =>
        let t := runGo method dec rest [] 0
        (r :: t.1, t.2)
      | (o, _) => ([], o) := by
  induction input generalizing buf flag with
  | nil =>
    by_cases h : buf.isEmpty <;> simp [runGo, anextStep, riNext, h]
  | cons c rest ih =>
    by_cases h0 : bump flag c = 0
    · simp only [runGo, anextStep, riNext, h0, if_pos, if_true]
      cases anextFrame method dec (buf ++ [c]) <;> simp
    · by_cases hneg : bump flag c < 0
      · simp [runGo, anextStep, riNext, h0, hneg]
      · simp only [runGo, anextStep, riNext, h0, hneg, if_false]
        exact ih (buf ++ [c]) (bump flag c)

/-- Reading one raw frame: from any buffer and a counter that the frame
returns to zero exactly at its end, `ResponseIter.next` consumes exactly the
frame, emits the buffer extended by it, and leaves the rest unread. -/
theorem riNext_frame (s : List UInt8) :
    ∀ (rest buf : List UInt8) (flag : Int), s ≠ [] →
    (∀ n, n < s.length → 0 < n → 0 < flag + depth (s.take n)) →
    flag + depth s = 0 →
    riNext (s ++ rest) buf flag = (.frame (buf ++ s), rest) := by
  induction s with
  | nil => intro _ _ _ hne _ _; exact absurd rfl hne
  | cons c tl ih =>
    intro rest buf flag _ hpos hend
    by_cases htl : tl = []
    · subst htl
      have h0 : bump flag c = 0 := by
        rw [bump_shift]
        simpa [depth] using hend
      simp [riNext, h0]
    · have hlen : 0 < tl.length := List.length_pos.mpr htl
      have h1 : 0 < bump flag c := by
        have := hpos 1 (by simp; omega) (by omega)
        rw [bump_shift]
        simpa [depth] using this
      have hne0 : ¬ bump flag c = 0 := by omega
      have hnneg : ¬ bump flag c < 0 := by omega
      have step :
          riNext ((c :: tl) ++ rest) buf flag =
            riNext (tl ++ rest) (buf ++ [c]) (bump flag c) := by
        simp [riNext, hne0, hnneg]
      rw [step, ih rest (buf ++ [c]) (bump flag c) htl ?pos ?last]
      · simp
      case pos =>
        intro n hn hn0
        have := hpos (n + 1) (by simpa using Nat.succ_lt_succ hn) (by omega)
        rw [bump_shift]
        simp only [List.take_succ_cons, depth] at this
        omega
      case last =>
        have : depth (c :: tl) = bump 0 c + depth tl := rfl
        rw [bump_shift]
        omega

/-- Exhausting the source inside an object: if the counter stays strictly
positive on every nonempty prefix of the remaining input, `ResponseIter.next`
consumes everything and raises `Etcd3StreamError` carrying the accumulated
buffer. -/
theorem riNext_trunc (s : List UInt8) :
    ∀ (buf : List UInt8) (flag : Int),
    (∀ n, n < s.length + 1 → 0 < n → 0 < flag + depth (s.take n)) →
    buf ++ s ≠ [] →
    riNext s buf flag = (.streamError (buf ++ s), []) := by
  induction s with
  | nil =>
    intro buf flag _ hne
    have hb : ¬ buf.isEmpty = true := by simpa using hne
    simp [riNext, hb]
  | cons c tl ih =>
    intro buf flag hpos hne
    have h1 : 0 < bump flag c := by
      have := hpos 1 (by simp [List.length_cons]) (by omega)
      rw [bump_shift]
      simpa [depth] using this
    have hne0 : ¬ bump flag c = 0 := by omega
    have hnneg : ¬ bump flag c < 0 := by omega
    have step :
        riNext (c :: tl) buf flag =
          riNext tl (buf ++ [c]) (bump flag c) := by
      simp [riNext, hne0, hnneg]
    rw [step, ih (buf ++ [c]) (bump flag c) ?pos (by simp)]
    · simp
    case pos =>
      intro n hn hn0
      have := hpos (n + 1) (by simp only [List.length_cons]; omega) (by omega)
      rw [bump_shift]
      simp only [List.take_succ_cons, depth] at this
      omega

/-- Tokenizing a back-to-back concatenation of raw frames yields exactly
those frames, in order, then the clean end-of-stream signal. -/
theorem tokenize_join_clean (objs : List (List UInt8))
    (h : ∀ o ∈ objs, StrictObj o) :
    tokenize objs.flatten = (objs, .clean) := by
  induction objs with
  | nil => rfl
  | cons o os ih =>
    obtain ⟨hne, hd, hp⟩ := h o (List.mem_cons_self o os)
    have hframe : riNext (o ++ os.flatten) [] 0 = (.frame o, os.flatten) := by
      have := riNext_frame o os.flatten [] 0 hne
        (by intro n hn hn0; have := hp n hn hn0; omega) (by omega)
      simpa using this
    have hjoin : (o :: os).flatten = o ++ os.flatten := by simp
    unfold tokenize
    rw [hjoin, tokGo_eq_riNext, hframe]
    have htail := ih (fun o' ho' => h o' (List.mem_cons_of_mem o ho'))
    unfold tokenize at htail
    simp [htail]

/-- Tokenizing a concatenation of raw frames followed by a truncated object
yields exactly those frames and then the `Etcd3StreamError` signal carrying
the truncated bytes. -/
theorem tokenize_join_error (objs : List (List UInt8)) (pb : List UInt8)
    (h : ∀ o ∈ objs, StrictObj o) (hpb : TruncObj pb) :
    tokenize (objs.flatten ++ pb) = (objs, .error pb) := by
  induction objs with
  | nil =>
    have herr : riNext pb [] 0 = (.streamError pb, []) := by
      have := riNext_trunc pb [] 0
        (by intro n hn hn0; have := hpb.2 n hn hn0; omega) (by simpa using hpb.1)
      simpa using this
    unfold tokenize
    rw [show ([] : List (List UInt8)).flatten ++ pb = pb from by simp]
    rw [tokGo_eq_riNext, herr]
  | cons o os ih =>
    obtain ⟨hne, hd, hp⟩ := h o (List.mem_cons_self o os)
    have hframe : riNext (o ++ (os.flatten ++ pb)) [] 0 = (.frame o, os.flatten ++ pb) := by
      have := riNext_frame o (os.flatten ++ pb) [] 0 hne
        (by intro n hn hn0; have := hp n hn hn0; omega) (by omega)
      simpa using this
    have hjoin : (o :: os).flatten ++ pb = o ++ (os.flatten ++ pb) := by simp
    unfold tokenize
    rw [hjoin, tokGo_eq_riNext, hframe]
    have htail := ih (fun o' ho' => h o' (List.mem_cons_of_mem o ho'))
    unfold tokenize at htail
    simp [htail]

/-! ## Claim C1 -/

/-- C1, counterexample: on status 503 with the gateway's nested error body,
`call_rpc` raises an `Etcd3APIError` whose error attribute is the whole
error sub-document (not the message string) and whose code attribute is
`None` (the body has no top-level `code` key), contradicting the claimed
code 14 and message string. -/
theorem c1_counterexample :
    callRpc "kv/range" ⟨503, c1Body⟩ false false none =
      (.statusError (.apiError (some c1Err) none 503), false) ∧
    some c1Err ≠ some (JValue.str "transport is closing") ∧
    (none : Option JValue) ≠ some (JValue.num 14) := by
  refine ⟨rfl, ?_, ?_⟩ <;> simp [c1Err]

/-- C1, amended: for every `call_rpc` call whose HTTP response has status
503 and the nested error body, `_raise_for_status` raises an `Etcd3APIError`
whose HTTP status is 503, whose error attribute is the parsed error
sub-document, and whose code attribute is `None` (the top-level `code` key
is absent from this body). -/
theorem c1_amended (method : String) (stream raw : Bool) :
    callRpc method ⟨503, c1Body⟩ stream raw none =
      (.statusError (.apiError (some c1Err) none 503), false) := rfl

/-! ## Claim C2 -/

/-- C2, code evaluated at the failing input: when constructing the stream
handle raises an `Etcd3Exception`, `call_rpc` does close the underlying
response, but it swallows the exception and falls through to the
non-streamed parsing path on the closed response instead of propagating
it (the `except` branch has no `raise`). -/
theorem c2_bug_eval :
    callRpc "watch" ⟨200, strBytes "\x7b\x7d"⟩ true false
        (some ⟨"construction failed"⟩) =
      (.readAfterClose, true) ∧
    CallRpcResult.readAfterClose ≠ .raised ⟨"construction failed"⟩ := by
  exact ⟨rfl, by simp⟩

/-! ## Claim C3 -/

/-- C3, counterexample: for a key present in both the caller-supplied
headers and the client's default headers, the value sent is the client's
default — the caller-supplied value is silently replaced, contradicting the
claim that the caller's value wins. -/
theorem c3_counterexample :
    callRpcHeaders (some callerHdrs) "etcd3-py-ua" clientHdrs "x-extra" =
      some "client-default" ∧
    some "client-default" ≠ some "caller-value" := ⟨rfl, by simp⟩

/-- C3, amended: the request headers are the client's default headers merged
over the caller-supplied headers — for every key the client's value wins when
present, the caller's value is used otherwise, and the key `user_agent`
additionally defaults to the client's user agent when the caller did not
supply it. -/
theorem c3_amended (caller client : PyDict) (ua k : String) :
    callRpcHeaders (some caller) ua client k =
      match client k with
      | some v => some v
      | none =>
        match caller k with
        | some v => some v
        | none => if k = "user_agent" then some ua else none := by
  unfold callRpcHeaders dUpdate dSetdefault
  by_cases hk : k = "user_agent"
  · subst hk
    cases hc : client "user_agent" <;> cases hca : caller "user_agent" <;>
      simp [hc, hca, Option.getD]
  · cases hc : client k <;> cases hca : caller k <;> simp [hc, hca, hk]

/-! ## Claim C4 -/

/-- C4, counterexample: a streamed frame whose parsed document contains an
`error` key with a falsy value (the empty object) does NOT raise
`Etcd3APIError` — the truthiness test `if data.get('error'):` skips the
raise and the decoder returns a modeled result for the frame. -/
theorem c4_counterexample :
    anextFrame "watch" true c4BadFrame =
      .item (modelizeResponseData "watch" (.obj [("error", .obj [])]) true) := rfl

/-- C4, amended: for every streamed frame whose parsed document's `error`
value is a non-empty (truthy) error object, `__anext__` raises an
`Etcd3APIError` whose message is the sub-document's `message` entry, whose
code is the sub-document's `code` entry, and whose HTTP status is the
sub-document's `http_code` entry, and does not return a modeled result. -/
theorem c4_amended (method : String) (dec : Bool) (f : List UInt8)
    (kvs ekvs : List (String × JValue))
    (hparse : jsonLoadsBytes f = some (.obj kvs))
    (herr : jget kvs "error" = some (.obj ekvs))
    (hne : ekvs ≠ []) :
    anextFrame method dec f =
      .apiError (jget ekvs "message") (jget ekvs "code") (jget ekvs "http_code") := by
  have ht : truthy (.obj ekvs) = true := by simpa [truthy] using hne
  simp [anextFrame, hparse, herr, ht]

/-- C4, witness: the amended theorem applied to the spec's wire-format error
frame (note the code attribute is `None`: the sub-document keys the protocol
code as `grpc_code`, not `code`). -/
theorem c4_witness :
    jsonLoadsBytes c4WireFrame = some (.obj [("error", .obj c4WireErr)]) ∧
    jget [("error", JValue.obj c4WireErr)] "error" = some (.obj c4WireErr) ∧
    c4WireErr ≠ [] ∧
    anextFrame "watch" true c4WireFrame =
      .apiError (some (.str "transport is closing")) none (some (.num 503)) := by
  refine ⟨rfl, rfl, by simp [c4WireErr], ?_⟩
  have h := c4_amended "watch" true c4WireFrame [("error", .obj c4WireErr)]
    c4WireErr rfl rfl (by simp [c4WireErr])
  exact h

/-! ## Claim C5 -/

/-- C5, counterexample: `c5Obj` is one JSON-parseable object with balanced
brace counts, yet tokenizing it emits two frames (the counter returns to
zero early at the brace inside the string literal), and the first frame is
not parseable as JSON — so N objects do not always give N frames. -/
theorem c5_counterexample :
    depth c5Obj = 0 ∧
    jsonLoadsBytes c5Obj = some (.obj [("a", .str "\x7d\x7b")]) ∧
    tokenize c5Obj = ([strBytes "\x7b\"a\":\"\x7d", strBytes "\x7b\"\x7d"], .clean) ∧
    jsonLoadsBytes (strBytes "\x7b\"a\":\"\x7d") = none :=
  ⟨rfl, rfl, rfl, rfl⟩

/-- C5, amended: for every concatenation of N objects each of which is a raw
frame in the matched-brace sense (counter zero exactly at the end, strictly
positive strictly inside — no early return to zero from braces inside string
literals), the tokenizer emits exactly the N objects in order and then
signals clean end of stream. -/
theorem c5_amended (objs : List (List UInt8)) (h : ∀ o ∈ objs, StrictObj o) :
    tokenize objs.flatten = (objs, .clean) :=
  tokenize_join_clean objs h

/-- C5, witness: the amended theorem applied to two concrete matched-brace
objects. -/
theorem c5_witness :
    (∀ o ∈ [c5W1, c5W2], StrictObj o) ∧
    tokenize ([c5W1, c5W2].flatten) = ([c5W1, c5W2], .clean) :=
  ⟨by decide, c5_amended [c5W1, c5W2] (by decide)⟩

/-! ## Claim C6 -/

/-- C6: iterating the stream handle over the claim's two-frame body yields
exactly the modeled forms of the payloads x=1 then x=2, each unwrapped from
under the `result` key, and then ends cleanly with `StopAsyncIteration`. -/
theorem c6_stream_yields_two (method : String) (dec : Bool) :
    runStream method dec c6Body =
      ([modelizeResponseData method (.obj [("x", .num 1)]) dec,
        modelizeResponseData method (.obj [("x", .num 2)]) dec], .stopIter) := rfl

/-! ## Claim C7 -/

/-- C7: exhausting the source inside an object makes the whole-stream
tokenization end with a single `Etcd3StreamError` carrying exactly the
partial buffer — the partial bytes are never among the emitted frames —
while exhausting it with an empty buffer ends the stream cleanly. -/
theorem c7_truncation :
    (∀ (objs : List (List UInt8)) (pb : List UInt8),
        (∀ o ∈ objs, StrictObj o) → TruncObj pb →
        tokenize (objs.flatten ++ pb) = (objs, .error pb)) ∧
    (∀ objs : List (List UInt8), (∀ o ∈ objs, StrictObj o) →
        tokenize objs.flatten = (objs, .clean)) :=
  ⟨tokenize_join_error, tokenize_join_clean⟩

/-- C7, witness: the theorem applied to one complete object followed by the
spec's truncated object, and to the complete object alone. -/
theorem c7_witness :
    (∀ o ∈ [c7Whole], StrictObj o) ∧ TruncObj c7Trunc ∧
    tokenize ([c7Whole].flatten ++ c7Trunc) = ([c7Whole], .error c7Trunc) ∧
    tokenize ([c7Whole].flatten) = ([c7Whole], .clean) :=
  ⟨by decide, by decide,
    c7_truncation.1 [c7Whole] c7Trunc (by decide) (by decide),
    c7_truncation.2 [c7Whole] (by decide)⟩

/-! ## Claim C8 -/

/-- C8: a leading unmatched closing brace makes `ResponseIter.next` raise
`Etcd3StreamError` at once, leaving the rest of the source unread and
returning no frame; and in general, whenever a byte drives the bracket
counter negative, `next` raises at that byte with the rest unread. -/
theorem c8_negative_depth :
    (∀ rest : List UInt8, riNext (125 :: rest) [] 0 = (.streamError [125], rest)) ∧
    (∀ (c : UInt8) (rest buf : List UInt8) (flag : Int), bump flag c < 0 →
        riNext (c :: rest) buf flag = (.streamError (buf ++ [c]), rest)) := by
  constructor
  · intro rest
    have h1 : ¬ bump (0 : Int) 125 = 0 := by decide
    have h2 : bump (0 : Int) 125 < 0 := by decide
    simp [riNext, h1, h2]
  · intro c rest buf flag h
    have hne : ¬ bump flag c = 0 := by omega
    simp [riNext, hne, h]

/-- C8, witness: the general part applied at a concrete negative-counter
byte, with one further byte left unread. -/
theorem c8_witness :
    bump (0 : Int) 125 < 0 ∧
    riNext (125 :: [123]) [] 0 = (.streamError ([] ++ [125]), [123]) :=
  ⟨by decide, c8_negative_depth.2 125 [123] [] 0 (by decide)⟩

/-! ## Claim C9 -/

/-- C9: closing a stream handle is idempotent — a second close changes
nothing and never errors — and a first close of an open handle releases the
underlying response exactly once, at any point of the iteration. -/
theorem c9_close_idempotent (h : StreamHandle) :
    msrClose (msrClose h) = msrClose h ∧
    (msrClose (msrClose h)).resp.released = (msrClose h).resp.released ∧
    (h.resp.closed = false →
      (msrClose h).resp.released = h.resp.released + 1) := by
  obtain ⟨⟨c, r⟩⟩ := h
  cases c <;> simp [msrClose, respClose]

/-- C9, witness: the theorem applied to a concrete open handle. -/
theorem c9_witness :
    (StreamHandle.mk ⟨false, 0⟩).resp.closed = false ∧
    msrClose (msrClose ⟨⟨false, 0⟩⟩) = msrClose ⟨⟨false, 0⟩⟩ ∧
    (msrClose (⟨⟨false, 0⟩⟩ : StreamHandle)).resp.released = 0 + 1 :=
  ⟨rfl, (c9_close_idempotent ⟨⟨false, 0⟩⟩).1,
    (c9_close_idempotent ⟨⟨false, 0⟩⟩).2.2 rfl⟩

/-! ## Claim C10 -/

/-- C10, counterexample: the digit byte `1` at depth zero is emitted as a
one-byte frame, but its JSON parse does NOT fail — it parses as the number 1
— and the decoder then dies with an `AttributeError` from `.get` on a
non-dict, not with a decode exception. -/
theorem c10_counterexample :
    riNext [49] [] 0 = (.frame [49], []) ∧
    jsonLoadsBytes [49] = some (.num 1) ∧
    anextFrame "watch" true [49] = .attrError (.num 1) :=
  ⟨rfl, rfl, rfl⟩

/-- C10, amended: a non-brace byte at depth zero with an empty buffer is
returned at once as a one-byte frame; when that single byte is not valid
JSON (e.g. a space or newline separator), the decoder's parse of it fails
with the untyped decode exception, never with a `Etcd3StreamError`. -/
theorem c10_amended (b : UInt8) (rest : List UInt8) (method : String)
    (dec : Bool) (hb1 : b ≠ 123) (hb2 : b ≠ 125) :
    riNext (b :: rest) [] 0 = (.frame [b], rest) ∧
    (jsonLoadsBytes [b] = none → anextFrame method dec [b] = .decodeError [b]) := by
  constructor
  · have h0 : bump 0 b = 0 := by simp [bump, hb1, hb2]
    simp [riNext, h0]
  · intro hparse
    simp [anextFrame, hparse]

/-- C10, witness: the amended theorem applied to the newline separator
byte. -/
theorem c10_witness :
    (10 : UInt8) ≠ 123 ∧ (10 : UInt8) ≠ 125 ∧ jsonLoadsBytes [10] = none ∧
    riNext (10 :: [123]) [] 0 = (.frame [10], [123]) ∧
    anextFrame "watch" true [10] = .decodeError [10] :=
  ⟨by decide, by decide, rfl,
    (c10_amended 10 [123] "watch" true (by decide) (by decide)).1,
    (c10_amended 10 [123] "watch" true (by decide) (by decide)).2 rfl⟩
